import Mathlib

/-!
Verification of the atmospheric-scattering renderer (chriskillpack/atmosphere)
against its natural-language specification.

The Go source is shallowly embedded over the real numbers: float64 arithmetic
becomes exact real arithmetic, math.Sqrt becomes Real.sqrt, math.Exp becomes
Real.exp, math.Atan2 becomes an explicit case split over Real.arctan, and the
Go float-to-integer conversions become explicit floor / truncation operations.
The embedding follows the newest revision of main.go (the one containing
numIntegrateV and the in-scattering integrand, which is the revision the
repository test file main_test.go compiles against).
-/

namespace Atmos

open Real

/-! ### Vector algebra (vector3.go) -/

/-- 3D vector of float64 components, from vector3.go. -/
@[ext]
structure Vector3 where
  X : ℝ
  Y : ℝ
  Z : ℝ

def Vector3.Add (a b : Vector3) : Vector3 :=
  ⟨a.X + b.X, a.Y + b.Y, a.Z + b.Z⟩

def Vector3.Sub (a b : Vector3) : Vector3 :=
  ⟨a.X - b.X, a.Y - b.Y, a.Z - b.Z⟩

def Vector3.Multiply (v : Vector3) (f : ℝ) : Vector3 :=
  ⟨v.X * f, v.Y * f, v.Z * f⟩

noncomputable def Vector3.Divide (v : Vector3) (f : ℝ) : Vector3 :=
  let inv := 1 / f
  v.Multiply inv

def Vector3.LengthSquared (v : Vector3) : ℝ :=
  v.X * v.X + v.Y * v.Y + v.Z * v.Z

noncomputable def Vector3.Length (v : Vector3) : ℝ :=
  Real.sqrt v.LengthSquared

noncomputable def Vector3.Normalize (v : Vector3) : Vector3 :=
  v.Divide v.Length

def Vector3.Dot (v v2 : Vector3) : ℝ :=
  v.X * v2.X + v.Y * v2.Y + v.Z * v2.Z

def Vector3.Cross (v v2 : Vector3) : Vector3 :=
  ⟨v.Y * v2.Z - v.Z * v2.Y, v.Z * v2.X - v.X * v2.Z, v.X * v2.Y - v.Y * v2.X⟩

/-! ### Rays -/

/-- A ray: origin plus direction, from main.go. -/
structure Ray where
  Origin : Vector3
  Direction : Vector3

/-! ### Affine transform

The repository uses a Matrix type (with Identity, Rotate, Inverse, MulRay,
MulPosition, MulDirection); its source file is not under src/. -/

/-- Modelled from the spec: the affine transform component, a
"4x4-equivalent transform supporting composition, inversion, and
application to points/directions/rays" made of an invertible 3x3 linear
part and a translation; the matrix source file of the repository is
missing from src/. -/
structure Matrix where
  x00 : ℝ
  x01 : ℝ
  x02 : ℝ
  x10 : ℝ
  x11 : ℝ
  x12 : ℝ
  x20 : ℝ
  x21 : ℝ
  x22 : ℝ
  tx : ℝ
  ty : ℝ
  tz : ℝ

/-- Modelled from the spec: the identity transform. -/
def Identity : Matrix := ⟨1, 0, 0, 0, 1, 0, 0, 0, 1, 0, 0, 0⟩

/-- Modelled from the spec: application of the transform to a point
(linear part plus translation). -/
def Matrix.MulPosition (m : Matrix) (v : Vector3) : Vector3 :=
  ⟨m.x00 * v.X + m.x01 * v.Y + m.x02 * v.Z + m.tx,
   m.x10 * v.X + m.x11 * v.Y + m.x12 * v.Z + m.ty,
   m.x20 * v.X + m.x21 * v.Y + m.x22 * v.Z + m.tz⟩

/-- Modelled from the spec: application of the transform to a direction
(linear part only, no translation). -/
def Matrix.MulDirection (m : Matrix) (v : Vector3) : Vector3 :=
  ⟨m.x00 * v.X + m.x01 * v.Y + m.x02 * v.Z,
   m.x10 * v.X + m.x11 * v.Y + m.x12 * v.Z,
   m.x20 * v.X + m.x21 * v.Y + m.x22 * v.Z⟩

/-- Modelled from the spec: application of the transform to a ray
(point map on the origin, direction map on the direction). -/
def Matrix.MulRay (m : Matrix) (r : Ray) : Ray :=
  ⟨m.MulPosition r.Origin, m.MulDirection r.Direction⟩

/-- Modelled from the spec: inversion of the affine transform, via the
adjugate of the linear part divided by its determinant, with the inverse
translation being the negated image of the translation. -/
noncomputable def Matrix.Inverse (m : Matrix) : Matrix :=
  let invDet := 1 / (m.x00 * (m.x11 * m.x22 - m.x12 * m.x21)
    - m.x01 * (m.x10 * m.x22 - m.x12 * m.x20)
    + m.x02 * (m.x10 * m.x21 - m.x11 * m.x20))
  let i00 := (m.x11 * m.x22 - m.x12 * m.x21) * invDet
  let i01 := (m.x02 * m.x21 - m.x01 * m.x22) * invDet
  let i02 := (m.x01 * m.x12 - m.x02 * m.x11) * invDet
  let i10 := (m.x12 * m.x20 - m.x10 * m.x22) * invDet
  let i11 := (m.x00 * m.x22 - m.x02 * m.x20) * invDet
  let i12 := (m.x02 * m.x10 - m.x00 * m.x12) * invDet
  let i20 := (m.x10 * m.x21 - m.x11 * m.x20) * invDet
  let i21 := (m.x01 * m.x20 - m.x00 * m.x21) * invDet
  let i22 := (m.x00 * m.x11 - m.x01 * m.x10) * invDet
  ⟨i00, i01, i02, i10, i11, i12, i20, i21, i22,
   -(i00 * m.tx + i01 * m.ty + i02 * m.tz),
   -(i10 * m.tx + i11 * m.ty + i12 * m.tz),
   -(i20 * m.tx + i21 * m.ty + i22 * m.tz)⟩

/-- Modelled from the spec: axis-angle rotation (Rodrigues form on the
normalized axis), the only non-identity transform the renderer builds. -/
noncomputable def Rotate (axis : Vector3) (theta : ℝ) : Matrix :=
  let a := axis.Normalize
  let s := Real.sin theta
  let c := Real.cos theta
  let m := 1 - c
  ⟨m * a.X * a.X + c, m * a.X * a.Y - a.Z * s, m * a.X * a.Z + a.Y * s,
   m * a.X * a.Y + a.Z * s, m * a.Y * a.Y + c, m * a.Y * a.Z - a.X * s,
   m * a.X * a.Z - a.Y * s, m * a.Y * a.Z + a.X * s, m * a.Z * a.Z + c,
   0, 0, 0⟩

/-! ### Spheres and hits (main.go) -/

/-- A sphere: local-space center, radius, and transform to world space. -/
structure Sphere where
  Origin : Vector3
  Radius : ℝ
  Transform : Matrix

/-- An intersection result: the intersected shape (the only shape in the
program is Sphere, so the Go Shape interface field becomes an Option
Sphere, nil becoming none) and the parametric distance. -/
structure Hit where
  shape : Option Sphere
  T : ℝ

/-- The no-hit sentinel Hit{nil, 1e9}. -/
def NoHit : Hit := ⟨none, 1e9⟩

open Classical in
/-- Sphere.Intersect from main.go: transform the world ray into local
space, solve the quadratic, and return the smallest root above 1e-5. -/
noncomputable def Sphere.Intersect (s : Sphere) (r : Ray) : Hit :=
  let lr := s.Transform.Inverse.MulRay r
  let tov := lr.Origin.Sub s.Origin
  let b := tov.Dot lr.Direction
  let c := tov.Dot tov - s.Radius * s.Radius
  let d := b * b - c
  if d > 0 then
    let d2 := Real.sqrt d
    let t1 := -b - d2
    if t1 > 1e-5 then ⟨some s, t1⟩
    else
      let t2 := -b + d2
      if t2 > 1e-5 then ⟨some s, t2⟩
      else NoHit
  else NoHit

/-- The coefficient b = (origin - center) . direction of the intersection
quadratic, computed on the ray mapped into the sphere local space. -/
noncomputable def Sphere.interB (s : Sphere) (r : Ray) : ℝ :=
  let lr := s.Transform.Inverse.MulRay r
  (lr.Origin.Sub s.Origin).Dot lr.Direction

/-- The coefficient c = |origin - center|^2 - radius^2 of the intersection
quadratic, computed on the ray mapped into the sphere local space. -/
noncomputable def Sphere.interC (s : Sphere) (r : Ray) : ℝ :=
  let lr := s.Transform.Inverse.MulRay r
  (lr.Origin.Sub s.Origin).Dot (lr.Origin.Sub s.Origin) - s.Radius * s.Radius

/-- The discriminant d = b * b - c of the intersection quadratic. -/
noncomputable def Sphere.interD (s : Sphere) (r : Ray) : ℝ :=
  s.interB r * s.interB r - s.interC r

/-- math.Atan2 of Go, expressed through Real.arctan with the standard
quadrant case split (real arithmetic has no signed zero, so the signed
zero cases of the float function collapse into the y = 0 cases). -/
noncomputable def atan2 (y x : ℝ) : ℝ :=
  if 0 < x then Real.arctan (y / x)
  else if x < 0 then
    (if 0 ≤ y then Real.arctan (y / x) + Real.pi else Real.arctan (y / x) - Real.pi)
  else
    (if 0 < y then Real.pi / 2 else if y < 0 then -(Real.pi / 2) else 0)

/-- Sphere.UV from main.go (newest revision): spherical angles of the
local-space point remapped into texture space. -/
noncomputable def Sphere.UV (s : Sphere) (wp : Vector3) : Vector3 :=
  let p0 := s.Transform.Inverse.MulPosition wp
  let p := p0.Sub s.Origin
  let u := atan2 p.Z p.X
  let v := atan2 p.Y (Vector3.Length ⟨p.X, 0, p.Z⟩)
  let u2 := (u + Real.pi) / (2 * Real.pi)
  let v2 := (Real.pi - (v + Real.pi / 2)) / Real.pi
  ⟨u2, v2, 0⟩

/-- Sphere.Normal from main.go: local point minus center, normalized. -/
noncomputable def Sphere.Normal (s : Sphere) (wp : Vector3) : Vector3 :=
  let p0 := s.Transform.Inverse.MulPosition wp
  let p := p0.Sub s.Origin
  p.Normalize

/-! ### Color model (main.go) -/

/-- Linear RGBA color with float64 channels. -/
structure Color where
  R : ℝ
  G : ℝ
  B : ℝ
  A : ℝ

def Color.AddRGB (a b : Color) : Color :=
  ⟨a.R + b.R, a.G + b.G, a.B + b.B, a.A⟩

def Color.MultiplyRGB (c : Color) (f : ℝ) : Color :=
  ⟨c.R * f, c.G * f, c.B * f, c.A⟩

/-- clamp from main.go: math.Max(math.Min(x, max), min). -/
noncomputable def clamp (x lo hi : ℝ) : ℝ :=
  max (min x hi) lo

/-- Color.Pack from main.go: per channel, clamp the 255-scaled value to
[0, 255] and convert to uint8. The Go float-to-uint8 conversion truncates
toward zero, which on the clamped nonnegative range is the floor. The
result models color.NRGBA as a 4-tuple of naturals. -/
noncomputable def Color.Pack (c : Color) : ℕ × ℕ × ℕ × ℕ :=
  (⌊clamp (c.R * 255) 0 255⌋.toNat,
   ⌊clamp (c.G * 255) 0 255⌋.toNat,
   ⌊clamp (c.B * 255) 0 255⌋.toNat,
   ⌊clamp (c.A * 255) 0 255⌋.toNat)

/-- Follows the words of claim C4 (for refutation): pack by clamping each
channel to [0, 1], scaling to [0, 255] and rounding to the nearest
integer. -/
noncomputable def Color.PackClaimRounded (c : Color) : ℕ × ℕ × ℕ × ℕ :=
  ((round (clamp c.R 0 1 * 255) : ℤ).toNat,
   (round (clamp c.G 0 1 * 255) : ℤ).toNat,
   (round (clamp c.B 0 1 * 255) : ℤ).toNat,
   (round (clamp c.A 0 1 * 255) : ℤ).toNat)

/-- NewColorFromRGBA from main.go: each 16-bit channel value divided
by 65536. -/
noncomputable def NewColorFromRGBA (r g b a : ℕ) : Color :=
  ⟨(r : ℝ) / 65536, (g : ℝ) / 65536, (b : ℝ) / 65536, (a : ℝ) / 65536⟩

/-- The Go float64-to-int conversion: truncation toward zero. -/
noncomputable def f64toInt (x : ℝ) : ℤ :=
  if 0 ≤ x then ⌊x⌋ else ⌈x⌉

/-- sampleTexture from main.go: nearest-neighbor lookup. The decoded
image is modelled as a function from pixel coordinates to the four
16-bit channel values returned by the Go color RGBA method, together
with the two image bounds. -/
noncomputable def sampleTexture (tex : ℤ → ℤ → ℕ × ℕ × ℕ × ℕ) (maxX maxY : ℤ)
    (u v : ℝ) : Color :=
  let x := f64toInt (clamp u 0 1 * (maxX : ℝ))
  let y := f64toInt (clamp v 0 1 * (maxY : ℝ))
  let t := tex x y
  NewColorFromRGBA t.1 t.2.1 t.2.2.1 t.2.2.2

/-! ### Scene constants (main.go) -/

def ImageWidth : ℤ := 640

def ImageHeight : ℤ := 480

def EarthRadius : ℝ := 6371000

def EarthAtmosphereHeight : ℝ := 100000

noncomputable def SunlightDir : Vector3 := (Vector3.mk 3 (-5) 1).Normalize

def SunlightIntensity : ℝ := 3.0

/-- Rayleigh extinction coefficients for the R, G and B wavelengths
650nm, 570nm, 475nm, from main.go. -/
def RayleighExtinction : Color := ⟨6.95265e-06, 1.17572e-05, 2.43797e-05, 0⟩

def RayleighDensityScale : ℝ := 0.25

def MieExtinction : Color := ⟨2.3e-06, 2.3e-06, 2.3e-06, 0⟩

def MieDensityScale : ℝ := 0.1

/-- The Rayleigh extinction formula the repository README derives its
coefficients from (Hoffman and Preetham wavelengths). -/
noncomputable def rayleighFormula (lam : ℝ) : ℝ :=
  ((8 * Real.pi ^ 3 * (1.0003 ^ 2 - 1) ^ 2) / (3 * 2.545e25 * lam ^ 4)) *
    ((6 + 3 * 0.035) / (6 - 7 * 0.035))

/-! ### Numerical integrators (main.go) -/

/-- The loop body of numIntegrate: iteration count, current sample
position, previous sample value, accumulator. -/
def numIntegrateLoop (fn : ℝ → ℝ → ℝ) (dx : ℝ) : ℕ → ℝ → ℝ → ℝ → ℝ
  | 0, _, _, area => area
  | k + 1, x, prevfn, area =>
      numIntegrateLoop fn dx k (x + dx) (fn (x + dx) dx)
        (area + (prevfn + fn (x + dx) dx))

/-- numIntegrate from main.go (newest revision): trapezoidal rule with
step dx = (b - a) / (n - 1); the Go loop from i = 1 while i < n runs
(n - 1) times for n above one, zero times otherwise. -/
noncomputable def numIntegrate (fn : ℝ → ℝ → ℝ) (a b : ℝ) (n : ℤ) : ℝ :=
  let dx := (b - a) / ((n : ℝ) - 1)
  numIntegrateLoop fn dx (n - 1).toNat a (fn a dx) 0 * dx * 0.5

/-- The loop body of numIntegrateV. -/
def numIntegrateVLoop (fn : ℝ → ℝ → Vector3) (dx : ℝ) :
    ℕ → ℝ → Vector3 → Vector3 → Vector3
  | 0, _, _, area => area
  | k + 1, x, prevfn, area =>
      numIntegrateVLoop fn dx k (x + dx) (fn (x + dx) dx)
        (area.Add (prevfn.Add (fn (x + dx) dx)))

/-- numIntegrateV from main.go: same trapezoidal rule for a vector
integrand. -/
noncomputable def numIntegrateV (fn : ℝ → ℝ → Vector3) (a b : ℝ) (n : ℤ) : Vector3 :=
  let dx := (b - a) / ((n : ℝ) - 1)
  (numIntegrateVLoop fn dx (n - 1).toNat a (fn a dx) ⟨0, 0, 0⟩).Multiply (dx * 0.5)

/-! ### Atmospheric optical model (main.go) -/

/-- optLengthFn from main.go: exponential-falloff atmospheric density at
the point reached at ray parameter t, with the normalized height taken
between the inner sphere siL and outer sphere soL the closure captures. -/
noncomputable def optLengthFn (siL soL : Sphere) (ray : Ray) (t _dx : ℝ) : ℝ :=
  let p := (ray.Direction.Multiply t).Add ray.Origin
  let h := ((p.Sub siL.Origin).Length - siL.Radius) / (soL.Radius - siL.Radius)
  Real.exp (-h / RayleighDensityScale)

/-- The fudge factor of main.go (local variable fudge in the
in-scattering integrand, flagged with a TODO in the source). -/
def fudge : ℝ := 1e-5

/-- The sunColor local of the in-scattering integrand in main.go:
sunlight intensity attenuated per channel by the Rayleigh extinction over
the sunward optical length, times the fudge factor. -/
noncomputable def sunColor (sunOptLength : ℝ) : Vector3 :=
  ⟨SunlightIntensity * Real.exp (-(RayleighExtinction.R * sunOptLength)) * fudge,
   SunlightIntensity * Real.exp (-(RayleighExtinction.G * sunOptLength)) * fudge,
   SunlightIntensity * Real.exp (-(RayleighExtinction.B * sunOptLength)) * fudge⟩

open Classical in
/-- inScatterFn from main.go: the in-scattering integrand. The closure
captures the inner and outer spheres siL and soL, the camera ray r and
the continuation ray ri, so those appear here as parameters. -/
noncomputable def inScatterFn (siL soL : Sphere) (r ri : Ray) (t dx : ℝ) : Vector3 :=
  let p := (ri.Direction.Multiply t).Add ri.Origin
  let rshd : Ray := ⟨p, ⟨-SunlightDir.X, -SunlightDir.Y, -SunlightDir.Z⟩⟩
  let rshdHit := siL.Intersect rshd
  if rshdHit ≠ NoHit then ⟨0, 0, 0⟩
  else
    let rs : Ray := ⟨p, ⟨-SunlightDir.X, -SunlightDir.Y, -SunlightDir.Z⟩⟩
    let rsHit := soL.Intersect rs
    if rsHit ≠ NoHit then
      let sunOptLength := numIntegrate (optLengthFn siL soL rs) 0 rsHit.T 5
      let sc := sunColor sunOptLength
      let cosT := r.Direction.Dot SunlightDir
      let scatPhase := 3 / (16.0 * Real.pi) * (cosT * cosT + 1)
      let contrib := sc.Multiply scatPhase
      ⟨contrib.X * Real.exp (-(RayleighExtinction.R * dx)),
       contrib.Y * Real.exp (-(RayleighExtinction.G * dx)),
       contrib.Z * Real.exp (-(RayleighExtinction.B * dx))⟩
    else ⟨0, 0, 0⟩

/-! ### Renderer (main.go) -/

/-- The outer atmosphere sphere of the scene. -/
noncomputable def so : Sphere :=
  ⟨⟨0, 0, 0⟩, EarthRadius + EarthAtmosphereHeight, Identity⟩

/-- The inner planet sphere of the scene, rotated about its vertical
axis. -/
noncomputable def si : Sphere :=
  ⟨⟨0, 0, 0⟩, EarthRadius, Rotate ⟨0, 1, 0⟩ (-0.5)⟩

/-- The camera ray of pixel (x, y) in main.go: normalized-device
coordinates scaled by the aspect quotient, fixed focal Z component 5,
origin far along negative Z. -/
noncomputable def cameraRay (x y : ℤ) : Ray :=
  let dirX := ((x - ImageWidth / 2 : ℤ) : ℝ) / ((ImageWidth / 2 : ℤ) : ℝ) *
    ((ImageWidth : ℝ) / (ImageHeight : ℝ))
  let dirY := ((ImageHeight / 2 - y : ℤ) : ℝ) / ((ImageHeight / 2 : ℤ) : ℝ)
  ⟨⟨0, 0, -40 * 1000 * 1000⟩, (Vector3.mk dirX dirY 5).Normalize⟩

open Classical in
/-- The per-pixel body of the render loop in main.go, for a given camera
ray. The Go mutation of the local color c is turned into explicit lets;
nextUp abstracts math.Nextafter toward positive infinity (a float64
operation with no exact real counterpart), and the decoded texture is a
parameter as in sampleTexture. Returns the packed NRGBA pixel value. -/
noncomputable def renderPixel (tex : ℤ → ℤ → ℕ × ℕ × ℕ × ℕ) (maxX maxY : ℤ)
    (nextUp : ℝ → ℝ) (r : Ray) : ℕ × ℕ × ℕ × ℕ :=
  let c : Color := ⟨0, 0, 0, 1⟩
  let ho := so.Intersect r
  if ho ≠ NoHit then
    let t1 := nextUp ho.T
    let ri : Ray := ⟨(r.Direction.Multiply t1).Add r.Origin, r.Direction⟩
    let hi := si.Intersect ri
    let branch : ℝ × Color :=
      if hi ≠ NoHit then
        let cp := (ri.Direction.Multiply hi.T).Add ri.Origin
        let uv := si.UV cp
        let n := si.Transform.MulDirection (si.Normal cp)
        let l := max 0 (-(n.Dot SunlightDir)) * SunlightIntensity
        (hi.T, (sampleTexture tex maxX maxY uv.X uv.Y).MultiplyRGB l)
      else
        let ho2 := so.Intersect ri
        (if ho2 ≠ NoHit then ho2.T else 0, c)
    let olE := branch.1
    let c2 := branch.2
    let inScatter := numIntegrateV (inScatterFn si so r ri) 0 olE 50
    let inScatterCol : Color := ⟨inScatter.X, inScatter.Y, inScatter.Z, 1⟩
    (c2.AddRGB inScatterCol).Pack
  else
    c.Pack

/-! ### Concrete instances used by witnesses and counterexamples -/

/-- A concrete inner sphere for exercising the in-scattering integrand:
unit sphere away from the sample point, perpendicular to the sun
direction. -/
noncomputable def siCex : Sphere := ⟨⟨-1, 0, 3⟩, 1, Identity⟩

/-- A concrete outer sphere containing the sample point at its center. -/
noncomputable def soCex : Sphere := ⟨⟨0, 0, 0⟩, 2, Identity⟩

/-- The sunward ray from the sample point at the origin. -/
noncomputable def rsCex : Ray :=
  ⟨⟨0, 0, 0⟩, ⟨-SunlightDir.X, -SunlightDir.Y, -SunlightDir.Z⟩⟩

/-- A concrete view ray through the origin. -/
noncomputable def rCex : Ray := ⟨⟨0, 0, 0⟩, ⟨0, 0, 1⟩⟩

/-! ## Theorems -/

lemma Sphere.Intersect_eq (s : Sphere) (r : Ray) :
    s.Intersect r =
      if s.interD r > 0 then
        if -s.interB r - Real.sqrt (s.interD r) > 1e-5 then
          ⟨some s, -s.interB r - Real.sqrt (s.interD r)⟩
        else if -s.interB r + Real.sqrt (s.interD r) > 1e-5 then
          ⟨some s, -s.interB r + Real.sqrt (s.interD r)⟩
        else NoHit
      else NoHit := rfl

lemma Sphere.Intersect_of_nonpos {s : Sphere} {r : Ray}
    (h : s.interD r ≤ 0) : s.Intersect r = NoHit := by
  rw [Sphere.Intersect_eq, if_neg (by linarith)]

lemma Sphere.Intersect_t1 {s : Sphere} {r : Ray}
    (hd : 0 < s.interD r) (h1 : 1e-5 < -s.interB r - Real.sqrt (s.interD r)) :
    s.Intersect r = ⟨some s, -s.interB r - Real.sqrt (s.interD r)⟩ := by
  rw [Sphere.Intersect_eq, if_pos hd, if_pos h1]

lemma Sphere.Intersect_t2 {s : Sphere} {r : Ray}
    (hd : 0 < s.interD r) (h1 : ¬ 1e-5 < -s.interB r - Real.sqrt (s.interD r))
    (h2 : 1e-5 < -s.interB r + Real.sqrt (s.interD r)) :
    s.Intersect r = ⟨some s, -s.interB r + Real.sqrt (s.interD r)⟩ := by
  rw [Sphere.Intersect_eq, if_pos hd, if_neg h1, if_pos h2]

lemma Sphere.Intersect_miss {s : Sphere} {r : Ray}
    (hd : 0 < s.interD r) (h2 : ¬ 1e-5 < -s.interB r + Real.sqrt (s.interD r)) :
    s.Intersect r = NoHit := by
  have h1 : ¬ 1e-5 < -s.interB r - Real.sqrt (s.interD r) := by
    have := Real.sqrt_nonneg (s.interD r)
    intro hlt; exact h2 (by linarith)
  rw [Sphere.Intersect_eq, if_pos hd, if_neg h1, if_neg h2]

/-- A hit record with a shape is never the sentinel. -/
lemma hit_ne_NoHit (s : Sphere) (t : ℝ) : (⟨some s, t⟩ : Hit) ≠ NoHit := by
  intro h
  exact Option.noConfusion (congrArg Hit.shape h)

/-- Identity is its own inverse. -/
lemma Identity_Inverse : Identity.Inverse = Identity := by
  simp only [Matrix.Inverse, Identity]
  norm_num

lemma Identity_MulPosition (v : Vector3) : Identity.MulPosition v = v := by
  simp only [Matrix.MulPosition, Identity]
  ext <;> ring

lemma Identity_MulDirection (v : Vector3) : Identity.MulDirection v = v := by
  simp only [Matrix.MulDirection, Identity]
  ext <;> ring

lemma Identity_MulRay (r : Ray) : Identity.MulRay r = r := by
  simp only [Matrix.MulRay, Identity_MulPosition, Identity_MulDirection]

/-- C1. For every input ray, Sphere.Intersect maps the ray into local
space via the inverse transform; with b, c and the discriminant d as in
the claim: if d is not positive there is no hit, otherwise the result is
the smallest of the two roots exceeding 1e-5 (no hit if neither does),
and every hit returned has parametric distance strictly above 1e-5. -/
theorem C1_sphere_intersect (s : Sphere) (r : Ray) :
    (s.interB r =
       ((s.Transform.Inverse.MulRay r).Origin.Sub s.Origin).Dot
         (s.Transform.Inverse.MulRay r).Direction) ∧
    (s.interC r =
       ((s.Transform.Inverse.MulRay r).Origin.Sub s.Origin).Dot
         ((s.Transform.Inverse.MulRay r).Origin.Sub s.Origin) -
         s.Radius * s.Radius) ∧
    (s.interD r = s.interB r * s.interB r - s.interC r) ∧
    (s.interD r ≤ 0 → s.Intersect r = NoHit) ∧
    (0 < s.interD r →
      (-s.interB r - Real.sqrt (s.interD r) ≤ -s.interB r + Real.sqrt (s.interD r)) ∧
      (1e-5 < -s.interB r - Real.sqrt (s.interD r) →
        s.Intersect r = ⟨some s, -s.interB r - Real.sqrt (s.interD r)⟩) ∧
      (-s.interB r - Real.sqrt (s.interD r) ≤ 1e-5 →
        1e-5 < -s.interB r + Real.sqrt (s.interD r) →
        s.Intersect r = ⟨some s, -s.interB r + Real.sqrt (s.interD r)⟩) ∧
      (-s.interB r + Real.sqrt (s.interD r) ≤ 1e-5 → s.Intersect r = NoHit)) ∧
    (s.Intersect r ≠ NoHit → 1e-5 < (s.Intersect r).T) := by
  refine ⟨rfl, rfl, rfl, fun h => Sphere.Intersect_of_nonpos h, fun hd => ?_, ?_⟩
  · have hs := Real.sqrt_nonneg (s.interD r)
    refine ⟨by linarith, fun h1 => Sphere.Intersect_t1 hd h1, fun h1 h2 =>
      Sphere.Intersect_t2 hd (by linarith) h2, fun h2 => Sphere.Intersect_miss hd (by linarith)⟩
  · intro hne
    rw [Sphere.Intersect_eq] at hne ⊢
    split_ifs at hne ⊢ with hd h1 h2
    · exact h1
    · exact h2
    · exact absurd rfl hne
    · exact absurd rfl hne

/-- Witness for C1: a unit sphere at the origin with identity transform,
hit by the ray from (0,0,-3) along +Z at distance 2. -/
theorem C1_witness :
    (Sphere.mk ⟨0, 0, 0⟩ 1 Identity).Intersect (Ray.mk ⟨0, 0, -3⟩ ⟨0, 0, 1⟩) =
      ⟨some (Sphere.mk ⟨0, 0, 0⟩ 1 Identity), 2⟩ := by
  have h := C1_sphere_intersect (Sphere.mk ⟨0, 0, 0⟩ 1 Identity)
    (Ray.mk ⟨0, 0, -3⟩ ⟨0, 0, 1⟩)
  have hB : (Sphere.mk ⟨0, 0, 0⟩ 1 Identity).interB (Ray.mk ⟨0, 0, -3⟩ ⟨0, 0, 1⟩) = -3 := by
    simp only [Sphere.interB, Identity_Inverse, Identity_MulRay, Vector3.Sub, Vector3.Dot]
    norm_num
  have hC : (Sphere.mk ⟨0, 0, 0⟩ 1 Identity).interC (Ray.mk ⟨0, 0, -3⟩ ⟨0, 0, 1⟩) = 8 := by
    simp only [Sphere.interC, Identity_Inverse, Identity_MulRay, Vector3.Sub, Vector3.Dot]
    norm_num
  have hD : (Sphere.mk ⟨0, 0, 0⟩ 1 Identity).interD (Ray.mk ⟨0, 0, -3⟩ ⟨0, 0, 1⟩) = 1 := by
    rw [Sphere.interD, hB, hC]; norm_num
  have hres := (h.2.2.2.2.1 (by rw [hD]; norm_num)).2.1
  rw [hB, hD, Real.sqrt_one] at hres
  have := hres (by norm_num)
  convert this using 2
  norm_num

/-- Bounding the Rayleigh formula at a fixed wavelength: linear bounds in
the cube of pi with an explicit rational coefficient. -/
lemma rayleighFormula_near (lam c tol : ℝ)
    (h1 : c - tol <
      (3.141592 : ℝ) ^ 3 *
        (8 * (1.0003 ^ 2 - 1) ^ 2 / (3 * 2.545e25 * lam ^ 4) *
          ((6 + 3 * 0.035) / (6 - 7 * 0.035))))
    (h2 : (3.141593 : ℝ) ^ 3 *
        (8 * (1.0003 ^ 2 - 1) ^ 2 / (3 * 2.545e25 * lam ^ 4) *
          ((6 + 3 * 0.035) / (6 - 7 * 0.035))) < c + tol)
    (hK : 0 < 8 * (1.0003 ^ 2 - 1) ^ 2 / (3 * 2.545e25 * lam ^ 4) *
          ((6 + 3 * 0.035) / (6 - 7 * 0.035))) :
    |rayleighFormula lam - c| < tol := by
  have hpi1 : (3.141592 : ℝ) < Real.pi := Real.pi_gt_3141592
  have hpi2 : Real.pi < 3.141593 := Real.pi_lt_3141593
  have hp3lo : (3.141592 : ℝ) ^ 3 < Real.pi ^ 3 :=
    pow_lt_pow_left hpi1 (by norm_num) (by norm_num)
  have hp3hi : Real.pi ^ 3 < (3.141593 : ℝ) ^ 3 :=
    pow_lt_pow_left hpi2 (by positivity) (by norm_num)
  have e : rayleighFormula lam =
      Real.pi ^ 3 *
        (8 * (1.0003 ^ 2 - 1) ^ 2 / (3 * 2.545e25 * lam ^ 4) *
          ((6 + 3 * 0.035) / (6 - 7 * 0.035))) := by
    unfold rayleighFormula
    ring
  rw [e, abs_lt]
  have hlo := mul_lt_mul_of_pos_right hp3lo hK
  have hhi := mul_lt_mul_of_pos_right hp3hi hK
  constructor <;> linarith

/-- C8. The Rayleigh extinction coefficients satisfy Blue > Green > Red,
equal the stated values, and each agrees with the Rayleigh scattering
formula at its stated wavelength (650nm, 570nm, 475nm) to well within
three significant figures. -/
theorem C8_rayleigh_coefficients :
    RayleighExtinction.B > RayleighExtinction.G ∧
    RayleighExtinction.G > RayleighExtinction.R ∧
    RayleighExtinction.R = 6.95265e-6 ∧
    RayleighExtinction.G = 1.17572e-5 ∧
    RayleighExtinction.B = 2.43797e-5 ∧
    |rayleighFormula 650e-9 - RayleighExtinction.R| < 1e-3 * RayleighExtinction.R ∧
    |rayleighFormula 570e-9 - RayleighExtinction.G| < 1e-3 * RayleighExtinction.G ∧
    |rayleighFormula 475e-9 - RayleighExtinction.B| < 1e-3 * RayleighExtinction.B := by
  refine ⟨by norm_num [RayleighExtinction], by norm_num [RayleighExtinction],
    rfl, rfl, rfl, ?_, ?_, ?_⟩ <;>
  · rw [show RayleighExtinction = ⟨6.95265e-6, 1.17572e-5, 2.43797e-5, 0⟩ from rfl]
    exact rayleighFormula_near _ _ _ (by norm_num) (by norm_num) (by norm_num)

/-- Each channel produced by NewColorFromRGBA from a 16-bit value lies in
the interval from 0 to 65535 / 65536. -/
lemma NewColor_channel_bound {k : ℕ} (hk : k ≤ 65535) :
    0 ≤ (k : ℝ) / 65536 ∧ (k : ℝ) / 65536 ≤ 65535 / 65536 := by
  constructor
  · positivity
  · have : (k : ℝ) ≤ 65535 := by exact_mod_cast hk
    linarith

/-- C9. NewColorFromRGBA divides each 16-bit channel by 65536, so each
channel of the result lies in [0, 65535/65536]; hence every color
returned by sampleTexture (whose texel channels are at most 65535) has
all channels strictly below 1. -/
theorem C9_new_color_bounds (r g b a : ℕ) (hr : r ≤ 65535) (hg : g ≤ 65535)
    (hb : b ≤ 65535) (ha : a ≤ 65535) (tex : ℤ → ℤ → ℕ × ℕ × ℕ × ℕ)
    (maxX maxY : ℤ) (u v : ℝ)
    (htex : ∀ x y, (tex x y).1 ≤ 65535 ∧ (tex x y).2.1 ≤ 65535 ∧
      (tex x y).2.2.1 ≤ 65535 ∧ (tex x y).2.2.2 ≤ 65535) :
    (NewColorFromRGBA r g b a).R = (r : ℝ) / 65536 ∧
    (NewColorFromRGBA r g b a).G = (g : ℝ) / 65536 ∧
    (NewColorFromRGBA r g b a).B = (b : ℝ) / 65536 ∧
    (NewColorFromRGBA r g b a).A = (a : ℝ) / 65536 ∧
    (0 ≤ (NewColorFromRGBA r g b a).R ∧ (NewColorFromRGBA r g b a).R ≤ 65535 / 65536) ∧
    (0 ≤ (NewColorFromRGBA r g b a).G ∧ (NewColorFromRGBA r g b a).G ≤ 65535 / 65536) ∧
    (0 ≤ (NewColorFromRGBA r g b a).B ∧ (NewColorFromRGBA r g b a).B ≤ 65535 / 65536) ∧
    (0 ≤ (NewColorFromRGBA r g b a).A ∧ (NewColorFromRGBA r g b a).A ≤ 65535 / 65536) ∧
    (NewColorFromRGBA r g b a).R < 1 ∧ (NewColorFromRGBA r g b a).G < 1 ∧
    (NewColorFromRGBA r g b a).B < 1 ∧ (NewColorFromRGBA r g b a).A < 1 ∧
    (sampleTexture tex maxX maxY u v).R < 1 ∧
    (sampleTexture tex maxX maxY u v).G < 1 ∧
    (sampleTexture tex maxX maxY u v).B < 1 ∧
    (sampleTexture tex maxX maxY u v).A < 1 := by
  have key : ∀ k : ℕ, k ≤ 65535 → (k : ℝ) / 65536 < 1 := by
    intro k hk
    have h := (NewColor_channel_bound hk).2
    linarith
  obtain ⟨ht1, ht2, ht3, ht4⟩ := htex
    (f64toInt (clamp u 0 1 * (maxX : ℝ))) (f64toInt (clamp v 0 1 * (maxY : ℝ)))
  exact ⟨rfl, rfl, rfl, rfl, NewColor_channel_bound hr, NewColor_channel_bound hg,
    NewColor_channel_bound hb, NewColor_channel_bound ha,
    key r hr, key g hg, key b hb, key a ha,
    key _ ht1, key _ ht2, key _ ht3, key _ ht4⟩

/-- Witness for C9 at fully saturated 16-bit inputs. -/
theorem C9_witness :
    (65535 ≤ 65535 ∧
      (NewColorFromRGBA 65535 65535 65535 65535).R < 1 ∧
      (sampleTexture (fun _ _ => (65535, 65535, 65535, 65535)) 9 9 0.5 0.5).R < 1) := by
  refine ⟨le_refl _, ?_, ?_⟩
  · exact (C9_new_color_bounds 65535 65535 65535 65535 (by norm_num) (by norm_num)
      (by norm_num) (by norm_num) (fun _ _ => (65535, 65535, 65535, 65535)) 9 9 0.5 0.5
      (fun _ _ => by norm_num)).2.2.2.2.2.2.2.2.2.1
  · exact (C9_new_color_bounds 65535 65535 65535 65535 (by norm_num) (by norm_num)
      (by norm_num) (by norm_num) (fun _ _ => (65535, 65535, 65535, 65535)) 9 9 0.5 0.5
      (fun _ _ => by norm_num)).2.2.2.2.2.2.2.2.2.2.2.2.2.1

lemma packChan_le (x : ℝ) : (⌊clamp (x * 255) 0 255⌋).toNat ≤ 255 := by
  have h1 : clamp (x * 255) 0 255 ≤ 255 :=
    max_le (min_le_right _ _) (by norm_num)
  have h2 : ⌊clamp (x * 255) 0 255⌋ ≤ 255 := by
    calc ⌊clamp (x * 255) 0 255⌋ ≤ ⌊(255 : ℝ)⌋ := Int.floor_le_floor h1
    _ = 255 := by norm_num
  exact Int.toNat_le.mpr (by exact_mod_cast h2)

lemma packChan_zero {x : ℝ} (h : x ≤ 0) : (⌊clamp (x * 255) 0 255⌋).toNat = 0 := by
  have h1 : clamp (x * 255) 0 255 = 0 := by
    unfold clamp
    rw [min_eq_left (by nlinarith), max_eq_right (by nlinarith)]
  rw [h1]
  norm_num

lemma packChan_sat {x : ℝ} (h : 1 ≤ x) : (⌊clamp (x * 255) 0 255⌋).toNat = 255 := by
  have h1 : clamp (x * 255) 0 255 = 255 := by
    unfold clamp
    rw [min_eq_right (by nlinarith), max_eq_left (by norm_num)]
  rw [h1, show ⌊(255 : ℝ)⌋ = 255 from by norm_num]
  rfl

lemma clamp_scale (x : ℝ) : clamp (x * 255) 0 255 = clamp x 0 1 * 255 := by
  unfold clamp
  have hmin : min (x * 255) 255 = min x 1 * 255 := by
    rcases le_total x 1 with h | h
    · rw [min_eq_left (by nlinarith), min_eq_left h]
    · rw [min_eq_right (by nlinarith), min_eq_right h]
      ring
  rw [hmin]
  rcases le_total (min x 1) 0 with h | h
  · rw [max_eq_right (by nlinarith), max_eq_right h]
    ring
  · rw [max_eq_left (by nlinarith), max_eq_left h]

/-- C4 (amended). Pack clamps each channel to [0,1], scales to [0,255],
and truncates (floor on the clamped nonnegative value) rather than
rounding to nearest; every packed channel lies in [0, 255], channels at
or below 0 pack to 0, and channels at or above 1 pack to 255. -/
theorem C4_pack (c : Color) :
    c.Pack = ((⌊clamp c.R 0 1 * 255⌋).toNat, (⌊clamp c.G 0 1 * 255⌋).toNat,
      (⌊clamp c.B 0 1 * 255⌋).toNat, (⌊clamp c.A 0 1 * 255⌋).toNat) ∧
    (c.Pack.1 ≤ 255 ∧ c.Pack.2.1 ≤ 255 ∧ c.Pack.2.2.1 ≤ 255 ∧ c.Pack.2.2.2 ≤ 255) ∧
    (c.R ≤ 0 → c.Pack.1 = 0) ∧ (1 ≤ c.R → c.Pack.1 = 255) ∧
    (c.G ≤ 0 → c.Pack.2.1 = 0) ∧ (1 ≤ c.G → c.Pack.2.1 = 255) ∧
    (c.B ≤ 0 → c.Pack.2.2.1 = 0) ∧ (1 ≤ c.B → c.Pack.2.2.1 = 255) ∧
    (c.A ≤ 0 → c.Pack.2.2.2 = 0) ∧ (1 ≤ c.A → c.Pack.2.2.2 = 255) := by
  unfold Color.Pack
  refine ⟨by rw [clamp_scale, clamp_scale, clamp_scale, clamp_scale],
    ⟨packChan_le _, packChan_le _, packChan_le _, packChan_le _⟩,
    fun h => packChan_zero h, fun h => packChan_sat h,
    fun h => packChan_zero h, fun h => packChan_sat h,
    fun h => packChan_zero h, fun h => packChan_sat h,
    fun h => packChan_zero h, fun h => packChan_sat h⟩

/-- Counterexample for C4 as stated: at channel value 0.999 the code
truncates 254.745 to 254 while rounding to the nearest 8-bit integer
would give 255. -/
theorem C4_counterexample :
    Color.Pack ⟨0.999, 0, 0, 1⟩ ≠ Color.PackClaimRounded ⟨0.999, 0, 0, 1⟩ := by
  intro h
  have h1 : (Color.Pack ⟨0.999, 0, 0, 1⟩).1 = 254 := by
    unfold Color.Pack
    have hc : clamp ((0.999 : ℝ) * 255) 0 255 = 254.745 := by
      unfold clamp
      rw [min_eq_left (by norm_num), max_eq_left (by norm_num)]
      norm_num
    simp only [hc]
    rw [show ⌊(254.745 : ℝ)⌋ = 254 from Int.floor_eq_iff.mpr (by norm_num)]
    rfl
  have h2 : (Color.PackClaimRounded ⟨0.999, 0, 0, 1⟩).1 = 255 := by
    unfold Color.PackClaimRounded
    have hc : clamp (0.999 : ℝ) 0 1 = 0.999 := by
      unfold clamp
      rw [min_eq_left (by norm_num), max_eq_left (by norm_num)]
    simp only [hc]
    rw [round_eq]
    rw [show ⌊(0.999 : ℝ) * 255 + 1 / 2⌋ = 255 from Int.floor_eq_iff.mpr (by norm_num)]
    rfl
  rw [h] at h1
  omega

/-- Witness for C4: a color with one channel below 0, one above 1, one
interior and full alpha. -/
theorem C4_witness :
    ((-0.5 : ℝ) ≤ 0 ∧ (1 : ℝ) ≤ 2) ∧
    (Color.Pack ⟨-0.5, 2, 0.25, 1⟩).1 = 0 ∧
    (Color.Pack ⟨-0.5, 2, 0.25, 1⟩).2.1 = 255 ∧
    (Color.Pack ⟨-0.5, 2, 0.25, 1⟩).2.2.2 = 255 := by
  refine ⟨⟨by norm_num, by norm_num⟩, ?_, ?_, ?_⟩
  · exact (C4_pack ⟨-0.5, 2, 0.25, 1⟩).2.2.1 (by norm_num)
  · exact (C4_pack ⟨-0.5, 2, 0.25, 1⟩).2.2.2.2.2.1 (by norm_num)
  · exact (C4_pack ⟨-0.5, 2, 0.25, 1⟩).2.2.2.2.2.2.2.2.2 (by norm_num)

lemma numIntegrateLoop_spec (fn : ℝ → ℝ → ℝ) (dx : ℝ) :
    ∀ (k : ℕ) (x area : ℝ),
      numIntegrateLoop fn dx k x (fn x dx) area =
        area + ∑ i ∈ Finset.range k,
          (fn (x + i * dx) dx + fn (x + (i + 1) * dx) dx) := by
  intro k
  induction k with
  | zero => intro x area; simp [numIntegrateLoop]
  | succ k ih =>
      intro x area
      show numIntegrateLoop fn dx k (x + dx) (fn (x + dx) dx)
        (area + (fn x dx + fn (x + dx) dx)) = _
      rw [ih (x + dx)]
      rw [Finset.sum_range_succ']
      have hsum : ∑ i ∈ Finset.range k,
          (fn (x + dx + (i : ℝ) * dx) dx + fn (x + dx + ((i : ℝ) + 1) * dx) dx) =
          ∑ i ∈ Finset.range k,
          (fn (x + ((i + 1 : ℕ) : ℝ) * dx) dx + fn (x + (((i + 1 : ℕ) : ℝ) + 1) * dx) dx) := by
        refine Finset.sum_congr rfl fun i _ => ?_
        have e1 : x + dx + (i : ℝ) * dx = x + ((i + 1 : ℕ) : ℝ) * dx := by
          push_cast; ring
        have e2 : x + dx + ((i : ℝ) + 1) * dx = x + (((i + 1 : ℕ) : ℝ) + 1) * dx := by
          push_cast; ring
        rw [e1, e2]
      rw [hsum]
      have e0 : x + ((0 : ℕ) : ℝ) * dx = x := by push_cast; ring
      have e0b : x + (((0 : ℕ) : ℝ) + 1) * dx = x + dx := by push_cast; ring
      rw [e0, e0b]
      ring

lemma numIntegrate_spec (fn : ℝ → ℝ → ℝ) (a b : ℝ) (n : ℤ) :
    numIntegrate fn a b n =
      (∑ i ∈ Finset.range (n - 1).toNat,
        (fn (a + i * ((b - a) / ((n : ℝ) - 1))) ((b - a) / ((n : ℝ) - 1)) +
         fn (a + (i + 1) * ((b - a) / ((n : ℝ) - 1))) ((b - a) / ((n : ℝ) - 1)))) *
        (((b - a) / ((n : ℝ) - 1)) / 2) := by
  simp only [numIntegrate]
  rw [numIntegrateLoop_spec]
  ring

lemma numIntegrateVLoop_comp (fn : ℝ → ℝ → Vector3) (dx : ℝ) :
    ∀ (k : ℕ) (x : ℝ) (p area : Vector3),
      numIntegrateVLoop fn dx k x p area =
        ⟨numIntegrateLoop (fun t d => (fn t d).X) dx k x p.X area.X,
         numIntegrateLoop (fun t d => (fn t d).Y) dx k x p.Y area.Y,
         numIntegrateLoop (fun t d => (fn t d).Z) dx k x p.Z area.Z⟩ := by
  intro k
  induction k with
  | zero => intro x p area; rfl
  | succ k ih =>
      intro x p area
      show numIntegrateVLoop fn dx k (x + dx) (fn (x + dx) dx)
        (area.Add (p.Add (fn (x + dx) dx))) = _
      rw [ih]
      ext <;> simp [numIntegrateLoop, Vector3.Add]

lemma numIntegrateV_comp (fn : ℝ → ℝ → Vector3) (a b : ℝ) (n : ℤ) :
    numIntegrateV fn a b n =
      ⟨numIntegrate (fun t d => (fn t d).X) a b n,
       numIntegrate (fun t d => (fn t d).Y) a b n,
       numIntegrate (fun t d => (fn t d).Z) a b n⟩ := by
  simp only [numIntegrateV, numIntegrate]
  rw [numIntegrateVLoop_comp]
  simp only [Vector3.Multiply]
  ext <;> (dsimp only; ring)

/-- C2. For every integrand, interval and sample count n at least 2, the
integrators compute the trapezoidal rule exactly: with
dx = (b - a) / (n - 1), each sums the integrand over the n - 1
consecutive sample pairs and multiplies by dx / 2 (numIntegrateV does so
componentwise). -/
theorem C2_integrators (fnS : ℝ → ℝ → ℝ) (fnV : ℝ → ℝ → Vector3) (a b : ℝ)
    (n : ℤ) (hn : 2 ≤ n) :
    numIntegrate fnS a b n =
      (∑ i ∈ Finset.range (n - 1).toNat,
        (fnS (a + i * ((b - a) / ((n : ℝ) - 1))) ((b - a) / ((n : ℝ) - 1)) +
         fnS (a + (i + 1) * ((b - a) / ((n : ℝ) - 1))) ((b - a) / ((n : ℝ) - 1)))) *
        (((b - a) / ((n : ℝ) - 1)) / 2) ∧
    numIntegrateV fnV a b n =
      ⟨(∑ i ∈ Finset.range (n - 1).toNat,
          ((fnV (a + i * ((b - a) / ((n : ℝ) - 1))) ((b - a) / ((n : ℝ) - 1))).X +
           (fnV (a + (i + 1) * ((b - a) / ((n : ℝ) - 1))) ((b - a) / ((n : ℝ) - 1))).X)) *
          (((b - a) / ((n : ℝ) - 1)) / 2),
       (∑ i ∈ Finset.range (n - 1).toNat,
          ((fnV (a + i * ((b - a) / ((n : ℝ) - 1))) ((b - a) / ((n : ℝ) - 1))).Y +
           (fnV (a + (i + 1) * ((b - a) / ((n : ℝ) - 1))) ((b - a) / ((n : ℝ) - 1))).Y)) *
          (((b - a) / ((n : ℝ) - 1)) / 2),
       (∑ i ∈ Finset.range (n - 1).toNat,
          ((fnV (a + i * ((b - a) / ((n : ℝ) - 1))) ((b - a) / ((n : ℝ) - 1))).Z +
           (fnV (a + (i + 1) * ((b - a) / ((n : ℝ) - 1))) ((b - a) / ((n : ℝ) - 1))).Z)) *
          (((b - a) / ((n : ℝ) - 1)) / 2)⟩ := by
  refine ⟨numIntegrate_spec fnS a b n, ?_⟩
  rw [numIntegrateV_comp]
  rw [numIntegrate_spec, numIntegrate_spec, numIntegrate_spec]

/-- Witness for C2 with the integrand x over [0, 2] and n = 3. -/
theorem C2_witness :
    (2 : ℤ) ≤ 3 ∧
    numIntegrate (fun x _ => x) 0 2 3 =
      (∑ i ∈ Finset.range ((3 : ℤ) - 1).toNat,
        ((fun (x : ℝ) (_ : ℝ) => x) ((0 : ℝ) + i * ((2 - 0) / ((3 : ℝ) - 1))) ((2 - 0) / ((3 : ℝ) - 1)) +
         (fun (x : ℝ) (_ : ℝ) => x) ((0 : ℝ) + (i + 1) * ((2 - 0) / ((3 : ℝ) - 1))) ((2 - 0) / ((3 : ℝ) - 1)))) *
        (((2 - 0) / ((3 : ℝ) - 1)) / 2) ∧
    numIntegrate (fun x _ => x) 0 2 3 = 2 := by
  have h := (C2_integrators (fun x _ => x) (fun x _ => ⟨x, 0, 1⟩) 0 2 3 (by norm_num)).1
  refine ⟨by norm_num, h, ?_⟩
  rw [h]
  rw [show ((3 : ℤ) - 1).toNat = 2 from rfl]
  rw [Finset.sum_range_succ, Finset.sum_range_succ, Finset.sum_range_zero]
  norm_num

lemma Vector3.Length_nonneg (v : Vector3) : 0 ≤ v.Length :=
  Real.sqrt_nonneg _

lemma atan2_le_pi (y x : ℝ) : atan2 y x ≤ Real.pi := by
  have hπ := Real.pi_pos
  unfold atan2
  split_ifs with h1 h2 h3 h4 h5
  · have := Real.arctan_lt_pi_div_two (y / x)
    linarith
  · have hyx : y / x ≤ 0 := div_nonpos_iff.mpr (Or.inl ⟨h3, h2.le⟩)
    have harc : Real.arctan (y / x) ≤ 0 := by
      have h := Real.arctan_strictMono.monotone hyx
      rwa [Real.arctan_zero] at h
    linarith
  · have := Real.arctan_lt_pi_div_two (y / x)
    linarith
  · linarith
  · linarith
  · linarith

lemma neg_pi_le_atan2 (y x : ℝ) : -Real.pi ≤ atan2 y x := by
  have hπ := Real.pi_pos
  unfold atan2
  split_ifs with h1 h2 h3 h4 h5
  · have := Real.neg_pi_div_two_lt_arctan (y / x)
    linarith
  · have := Real.neg_pi_div_two_lt_arctan (y / x)
    linarith
  · have hyx : 0 ≤ y / x := le_of_lt (div_pos_iff.mpr (Or.inr ⟨by linarith, h2⟩))
    have harc : 0 ≤ Real.arctan (y / x) := by
      have h := Real.arctan_strictMono.monotone hyx
      rwa [Real.arctan_zero] at h
    linarith
  · linarith
  · linarith
  · linarith

lemma atan2_bounds_of_nonneg {y x : ℝ} (hx : 0 ≤ x) :
    -(Real.pi / 2) ≤ atan2 y x ∧ atan2 y x ≤ Real.pi / 2 := by
  have hπ := Real.pi_pos
  unfold atan2
  split_ifs with h1 h2 h3 h4 h5
  · exact ⟨(Real.neg_pi_div_two_lt_arctan (y / x)).le,
      (Real.arctan_lt_pi_div_two (y / x)).le⟩
  · exact absurd h2 (not_lt.mpr hx)
  · exact absurd h2 (not_lt.mpr hx)
  · exact ⟨by linarith, le_refl _⟩
  · exact ⟨le_refl _, by linarith⟩
  · exact ⟨by linarith, by linarith⟩

lemma atan2_zero_pos {x : ℝ} (hx : 0 < x) : atan2 0 x = 0 := by
  unfold atan2
  rw [if_pos hx, zero_div, Real.arctan_zero]

/-- C7. For a sphere with the identity transform, Sphere.UV always lands
in the unit square carried in the X and Y components with Z = 0, and the
equator / prime-meridian point (radius, 0, 0) of the untransformed
sphere maps to u = 1/2, v = 1/2. -/
theorem C7_uv (s : Sphere) (wp : Vector3) (hT : s.Transform = Identity) :
    (0 ≤ (s.UV wp).X ∧ (s.UV wp).X ≤ 1 ∧
     0 ≤ (s.UV wp).Y ∧ (s.UV wp).Y ≤ 1 ∧ (s.UV wp).Z = 0) ∧
    (s.Origin = ⟨0, 0, 0⟩ → 0 < s.Radius →
      s.UV ⟨s.Radius, 0, 0⟩ = ⟨1 / 2, 1 / 2, 0⟩) := by
  have hπ := Real.pi_pos
  constructor
  · have hX : (s.UV wp).X =
        (atan2 ((s.Transform.Inverse.MulPosition wp).Sub s.Origin).Z
          ((s.Transform.Inverse.MulPosition wp).Sub s.Origin).X + Real.pi) /
          (2 * Real.pi) := rfl
    have hY : (s.UV wp).Y =
        (Real.pi - (atan2 ((s.Transform.Inverse.MulPosition wp).Sub s.Origin).Y
          (Vector3.Length ⟨((s.Transform.Inverse.MulPosition wp).Sub s.Origin).X, 0,
            ((s.Transform.Inverse.MulPosition wp).Sub s.Origin).Z⟩) + Real.pi / 2)) /
          Real.pi := rfl
    have hZ : (s.UV wp).Z = 0 := rfl
    have hu1 := neg_pi_le_atan2 ((s.Transform.Inverse.MulPosition wp).Sub s.Origin).Z
      ((s.Transform.Inverse.MulPosition wp).Sub s.Origin).X
    have hu2 := atan2_le_pi ((s.Transform.Inverse.MulPosition wp).Sub s.Origin).Z
      ((s.Transform.Inverse.MulPosition wp).Sub s.Origin).X
    have hv := atan2_bounds_of_nonneg
      (y := ((s.Transform.Inverse.MulPosition wp).Sub s.Origin).Y)
      (Vector3.Length_nonneg ⟨((s.Transform.Inverse.MulPosition wp).Sub s.Origin).X, 0,
        ((s.Transform.Inverse.MulPosition wp).Sub s.Origin).Z⟩)
    refine ⟨?_, ?_, ?_, ?_, hZ⟩
    · rw [hX]
      apply div_nonneg (by linarith) (by linarith)
    · rw [hX, div_le_one (by linarith)]
      linarith
    · rw [hY]
      apply div_nonneg ?_ (by linarith)
      have := hv.2
      linarith
    · rw [hY, div_le_one (by linarith)]
      have := hv.1
      linarith
  · intro hO hR
    have hp : (s.Transform.Inverse.MulPosition ⟨s.Radius, 0, 0⟩).Sub s.Origin =
        ⟨s.Radius, 0, 0⟩ := by
      rw [hT, Identity_Inverse, Identity_MulPosition, hO]
      simp [Vector3.Sub]
    have hL : Vector3.Length ⟨s.Radius, 0, 0⟩ = s.Radius := by
      unfold Vector3.Length Vector3.LengthSquared
      rw [show s.Radius * s.Radius + 0 * 0 + 0 * 0 = s.Radius ^ 2 from by ring,
        Real.sqrt_sq hR.le]
    have hXv : (s.UV ⟨s.Radius, 0, 0⟩).X =
        (atan2 ((s.Transform.Inverse.MulPosition ⟨s.Radius, 0, 0⟩).Sub s.Origin).Z
          ((s.Transform.Inverse.MulPosition ⟨s.Radius, 0, 0⟩).Sub s.Origin).X + Real.pi) /
          (2 * Real.pi) := rfl
    have hYv : (s.UV ⟨s.Radius, 0, 0⟩).Y =
        (Real.pi - (atan2 ((s.Transform.Inverse.MulPosition ⟨s.Radius, 0, 0⟩).Sub s.Origin).Y
          (Vector3.Length ⟨((s.Transform.Inverse.MulPosition ⟨s.Radius, 0, 0⟩).Sub s.Origin).X, 0,
            ((s.Transform.Inverse.MulPosition ⟨s.Radius, 0, 0⟩).Sub s.Origin).Z⟩) +
            Real.pi / 2)) / Real.pi := rfl
    refine Vector3.ext ?_ ?_ ?_
    · rw [hXv, hp]
      show (atan2 0 s.Radius + Real.pi) / (2 * Real.pi) = 1 / 2
      rw [atan2_zero_pos hR]
      rw [div_eq_iff (by linarith)]
      ring
    · rw [hYv, hp]
      show (Real.pi - (atan2 0 (Vector3.Length ⟨s.Radius, 0, 0⟩) + Real.pi / 2)) /
        Real.pi = 1 / 2
      rw [hL, atan2_zero_pos hR]
      rw [div_eq_iff (by linarith)]
      ring
    · rfl

/-- Witness for C7: the unit sphere at the origin with identity
transform, evaluated at the world point (1, 0, 0). -/
theorem C7_witness :
    (0 ≤ ((Sphere.mk ⟨0, 0, 0⟩ 1 Identity).UV ⟨2, 0, 7⟩).X ∧
     ((Sphere.mk ⟨0, 0, 0⟩ 1 Identity).UV ⟨2, 0, 7⟩).X ≤ 1) ∧
    (Sphere.mk ⟨0, 0, 0⟩ 1 Identity).UV ⟨1, 0, 0⟩ = ⟨1 / 2, 1 / 2, 0⟩ := by
  constructor
  · have h := (C7_uv (Sphere.mk ⟨0, 0, 0⟩ 1 Identity) ⟨2, 0, 7⟩ rfl).1
    exact ⟨h.1, h.2.1⟩
  · exact (C7_uv (Sphere.mk ⟨0, 0, 0⟩ 1 Identity) ⟨1, 0, 0⟩ rfl).2 rfl (by norm_num)

lemma SunlightDir_eq :
    SunlightDir = ⟨3 * (1 / Real.sqrt 35), -5 * (1 / Real.sqrt 35),
      1 * (1 / Real.sqrt 35)⟩ := by
  unfold SunlightDir Vector3.Normalize Vector3.Divide Vector3.Multiply
    Vector3.Length Vector3.LengthSquared
  norm_num

lemma siCex_miss : siCex.Intersect rsCex = NoHit := by
  apply Sphere.Intersect_of_nonpos
  unfold Sphere.interD Sphere.interB Sphere.interC
  simp only [siCex, rsCex, SunlightDir_eq, Identity_Inverse, Identity_MulRay,
    Vector3.Sub, Vector3.Dot]
  ring_nf
  norm_num

lemma soCex_hit : soCex.Intersect rsCex = ⟨some soCex, 2⟩ := by
  have hB : soCex.interB rsCex = 0 := by
    unfold Sphere.interB
    simp only [soCex, rsCex, Identity_Inverse, Identity_MulRay, Vector3.Sub, Vector3.Dot]
    ring
  have hC : soCex.interC rsCex = -4 := by
    unfold Sphere.interC
    simp only [soCex, rsCex, Identity_Inverse, Identity_MulRay, Vector3.Sub, Vector3.Dot]
    norm_num
  have hD : soCex.interD rsCex = 4 := by
    unfold Sphere.interD
    rw [hB, hC]
    norm_num
  have hs : Real.sqrt (soCex.interD rsCex) = 2 := by
    rw [hD, show (4 : ℝ) = 2 ^ 2 from by norm_num, Real.sqrt_sq (by norm_num)]
  have h := Sphere.Intersect_t2 (s := soCex) (r := rsCex)
    (by rw [hD]; norm_num) (by rw [hB, hs]; norm_num) (by rw [hB, hs]; norm_num)
  rw [hB, hs] at h
  rw [show -(0 : ℝ) + 2 = 2 from by norm_num] at h
  exact h

lemma soCex_ne : soCex.Intersect rsCex ≠ NoHit := by
  rw [soCex_hit]
  exact hit_ne_NoHit _ _

/-- C5. In the in-scattering integrand, outside the planet shadow and
with the sunward ray exiting the outer sphere, the factor applied to the
incoming sun color is the phase function 3 / (16 pi) (cosT^2 + 1), with
cosT the dot product of the view-ray direction and the sunlight
direction; the per-step extinction then multiplies each channel. -/
theorem C5_phase_function (siL soL : Sphere) (r ri : Ray) (t dx : ℝ)
    (hsh : siL.Intersect ⟨(ri.Direction.Multiply t).Add ri.Origin,
      ⟨-SunlightDir.X, -SunlightDir.Y, -SunlightDir.Z⟩⟩ = NoHit)
    (hsun : soL.Intersect ⟨(ri.Direction.Multiply t).Add ri.Origin,
      ⟨-SunlightDir.X, -SunlightDir.Y, -SunlightDir.Z⟩⟩ ≠ NoHit) :
    inScatterFn siL soL r ri t dx =
      ⟨(sunColor (numIntegrate (optLengthFn siL soL
          ⟨(ri.Direction.Multiply t).Add ri.Origin,
            ⟨-SunlightDir.X, -SunlightDir.Y, -SunlightDir.Z⟩⟩) 0
          ((soL.Intersect ⟨(ri.Direction.Multiply t).Add ri.Origin,
            ⟨-SunlightDir.X, -SunlightDir.Y, -SunlightDir.Z⟩⟩).T) 5)).X *
         (3 / (16 * Real.pi) *
           (r.Direction.Dot SunlightDir * r.Direction.Dot SunlightDir + 1)) *
         Real.exp (-(RayleighExtinction.R * dx)),
       (sunColor (numIntegrate (optLengthFn siL soL
          ⟨(ri.Direction.Multiply t).Add ri.Origin,
            ⟨-SunlightDir.X, -SunlightDir.Y, -SunlightDir.Z⟩⟩) 0
          ((soL.Intersect ⟨(ri.Direction.Multiply t).Add ri.Origin,
            ⟨-SunlightDir.X, -SunlightDir.Y, -SunlightDir.Z⟩⟩).T) 5)).Y *
         (3 / (16 * Real.pi) *
           (r.Direction.Dot SunlightDir * r.Direction.Dot SunlightDir + 1)) *
         Real.exp (-(RayleighExtinction.G * dx)),
       (sunColor (numIntegrate (optLengthFn siL soL
          ⟨(ri.Direction.Multiply t).Add ri.Origin,
            ⟨-SunlightDir.X, -SunlightDir.Y, -SunlightDir.Z⟩⟩) 0
          ((soL.Intersect ⟨(ri.Direction.Multiply t).Add ri.Origin,
            ⟨-SunlightDir.X, -SunlightDir.Y, -SunlightDir.Z⟩⟩).T) 5)).Z *
         (3 / (16 * Real.pi) *
           (r.Direction.Dot SunlightDir * r.Direction.Dot SunlightDir + 1)) *
         Real.exp (-(RayleighExtinction.B * dx))⟩ := by
  simp only [inScatterFn]
  rw [hsh]
  rw [if_neg (fun h => h rfl)]
  rw [if_pos hsun]
  rw [show (16.0 : ℝ) = 16 from by norm_num]
  simp only [Vector3.Multiply]

/-- Witness for C5 at a concrete scene: sample point at the origin,
inner sphere off to the side missing the shadow ray, outer sphere of
radius 2 around the sample point. -/
theorem C5_witness :
    siCex.Intersect rsCex = NoHit ∧ soCex.Intersect rsCex ≠ NoHit ∧
    inScatterFn siCex soCex rCex rCex 0 1 =
      ⟨(sunColor (numIntegrate (optLengthFn siCex soCex rsCex) 0
          ((soCex.Intersect rsCex).T) 5)).X *
         (3 / (16 * Real.pi) *
           (rCex.Direction.Dot SunlightDir * rCex.Direction.Dot SunlightDir + 1)) *
         Real.exp (-(RayleighExtinction.R * 1)),
       (sunColor (numIntegrate (optLengthFn siCex soCex rsCex) 0
          ((soCex.Intersect rsCex).T) 5)).Y *
         (3 / (16 * Real.pi) *
           (rCex.Direction.Dot SunlightDir * rCex.Direction.Dot SunlightDir + 1)) *
         Real.exp (-(RayleighExtinction.G * 1)),
       (sunColor (numIntegrate (optLengthFn siCex soCex rsCex) 0
          ((soCex.Intersect rsCex).T) 5)).Z *
         (3 / (16 * Real.pi) *
           (rCex.Direction.Dot SunlightDir * rCex.Direction.Dot SunlightDir + 1)) *
         Real.exp (-(RayleighExtinction.B * 1))⟩ := by
  have hray : (Ray.mk ((rCex.Direction.Multiply 0).Add rCex.Origin)
      ⟨-SunlightDir.X, -SunlightDir.Y, -SunlightDir.Z⟩) = rsCex := by
    have hp : (rCex.Direction.Multiply 0).Add rCex.Origin = (⟨0, 0, 0⟩ : Vector3) := by
      simp [rCex, Vector3.Multiply, Vector3.Add]
    rw [hp]
    rfl
  have pf1 : siCex.Intersect (Ray.mk ((rCex.Direction.Multiply 0).Add rCex.Origin)
      ⟨-SunlightDir.X, -SunlightDir.Y, -SunlightDir.Z⟩) = NoHit := by
    rw [hray]
    exact siCex_miss
  have pf2 : soCex.Intersect (Ray.mk ((rCex.Direction.Multiply 0).Add rCex.Origin)
      ⟨-SunlightDir.X, -SunlightDir.Y, -SunlightDir.Z⟩) ≠ NoHit := by
    rw [hray]
    exact soCex_ne
  have h := C5_phase_function siCex soCex rCex rCex 0 1 pf1 pf2
  rw [hray] at h
  exact ⟨siCex_miss, soCex_ne, h⟩

/-- C3 (amended). In the in-scattering integrand, outside the planet
shadow and with the sunward ray exiting the outer sphere at distance T,
the incoming sun color is, per channel, SunlightIntensity times
exp(-RayleighExtinction[channel] * sunOpticalLength) times the fudge
factor 1e-5 the code multiplies in, where sunOpticalLength is the
5-sample optical-length integral over [0, T] along the sunward ray; the
phase factor and per-step extinction then multiply each channel. -/
theorem C3_sun_attenuation (siL soL : Sphere) (r ri : Ray) (t dx : ℝ)
    (hsh : siL.Intersect ⟨(ri.Direction.Multiply t).Add ri.Origin,
      ⟨-SunlightDir.X, -SunlightDir.Y, -SunlightDir.Z⟩⟩ = NoHit)
    (hsun : soL.Intersect ⟨(ri.Direction.Multiply t).Add ri.Origin,
      ⟨-SunlightDir.X, -SunlightDir.Y, -SunlightDir.Z⟩⟩ ≠ NoHit) :
    inScatterFn siL soL r ri t dx =
      ⟨SunlightIntensity * Real.exp (-(RayleighExtinction.R *
          numIntegrate (optLengthFn siL soL
            ⟨(ri.Direction.Multiply t).Add ri.Origin,
              ⟨-SunlightDir.X, -SunlightDir.Y, -SunlightDir.Z⟩⟩) 0
            ((soL.Intersect ⟨(ri.Direction.Multiply t).Add ri.Origin,
              ⟨-SunlightDir.X, -SunlightDir.Y, -SunlightDir.Z⟩⟩).T) 5)) * 1e-5 *
         (3 / (16 * Real.pi) *
           (r.Direction.Dot SunlightDir * r.Direction.Dot SunlightDir + 1)) *
         Real.exp (-(RayleighExtinction.R * dx)),
       SunlightIntensity * Real.exp (-(RayleighExtinction.G *
          numIntegrate (optLengthFn siL soL
            ⟨(ri.Direction.Multiply t).Add ri.Origin,
              ⟨-SunlightDir.X, -SunlightDir.Y, -SunlightDir.Z⟩⟩) 0
            ((soL.Intersect ⟨(ri.Direction.Multiply t).Add ri.Origin,
              ⟨-SunlightDir.X, -SunlightDir.Y, -SunlightDir.Z⟩⟩).T) 5)) * 1e-5 *
         (3 / (16 * Real.pi) *
           (r.Direction.Dot SunlightDir * r.Direction.Dot SunlightDir + 1)) *
         Real.exp (-(RayleighExtinction.G * dx)),
       SunlightIntensity * Real.exp (-(RayleighExtinction.B *
          numIntegrate (optLengthFn siL soL
            ⟨(ri.Direction.Multiply t).Add ri.Origin,
              ⟨-SunlightDir.X, -SunlightDir.Y, -SunlightDir.Z⟩⟩) 0
            ((soL.Intersect ⟨(ri.Direction.Multiply t).Add ri.Origin,
              ⟨-SunlightDir.X, -SunlightDir.Y, -SunlightDir.Z⟩⟩).T) 5)) * 1e-5 *
         (3 / (16 * Real.pi) *
           (r.Direction.Dot SunlightDir * r.Direction.Dot SunlightDir + 1)) *
         Real.exp (-(RayleighExtinction.B * dx))⟩ := by
  simp only [inScatterFn]
  rw [hsh]
  rw [if_neg (fun h => h rfl)]
  rw [if_pos hsun]
  rw [show (16.0 : ℝ) = 16 from by norm_num]
  simp only [Vector3.Multiply, sunColor, fudge]

/-- Counterexample for C3 as stated: at a concrete non-shadowed sample
point whose sunward ray exits the outer sphere, the incoming sun color
channel is not SunlightIntensity * exp(-extinction * opticalLength),
because the code multiplies the additional fudge factor 1e-5. -/
theorem C3_counterexample :
    siCex.Intersect rsCex = NoHit ∧
    soCex.Intersect rsCex ≠ NoHit ∧
    (sunColor (numIntegrate (optLengthFn siCex soCex rsCex) 0
      ((soCex.Intersect rsCex).T) 5)).X ≠
      SunlightIntensity * Real.exp (-(RayleighExtinction.R *
        numIntegrate (optLengthFn siCex soCex rsCex) 0
          ((soCex.Intersect rsCex).T) 5)) := by
  refine ⟨siCex_miss, soCex_ne, ?_⟩
  intro h
  simp only [sunColor, fudge, SunlightIntensity] at h
  have hexp := Real.exp_pos (-(RayleighExtinction.R *
    numIntegrate (optLengthFn siCex soCex rsCex) 0 ((soCex.Intersect rsCex).T) 5))
  nlinarith [hexp]

/-- Witness for the amended C3 at the same concrete scene as the
counterexample. -/
theorem C3_witness :
    siCex.Intersect rsCex = NoHit ∧ soCex.Intersect rsCex ≠ NoHit ∧
    inScatterFn siCex soCex rCex rCex 0 1 =
      ⟨SunlightIntensity * Real.exp (-(RayleighExtinction.R *
          numIntegrate (optLengthFn siCex soCex rsCex) 0
            ((soCex.Intersect rsCex).T) 5)) * 1e-5 *
         (3 / (16 * Real.pi) *
           (rCex.Direction.Dot SunlightDir * rCex.Direction.Dot SunlightDir + 1)) *
         Real.exp (-(RayleighExtinction.R * 1)),
       SunlightIntensity * Real.exp (-(RayleighExtinction.G *
          numIntegrate (optLengthFn siCex soCex rsCex) 0
            ((soCex.Intersect rsCex).T) 5)) * 1e-5 *
         (3 / (16 * Real.pi) *
           (rCex.Direction.Dot SunlightDir * rCex.Direction.Dot SunlightDir + 1)) *
         Real.exp (-(RayleighExtinction.G * 1)),
       SunlightIntensity * Real.exp (-(RayleighExtinction.B *
          numIntegrate (optLengthFn siCex soCex rsCex) 0
            ((soCex.Intersect rsCex).T) 5)) * 1e-5 *
         (3 / (16 * Real.pi) *
           (rCex.Direction.Dot SunlightDir * rCex.Direction.Dot SunlightDir + 1)) *
         Real.exp (-(RayleighExtinction.B * 1))⟩ := by
  have hray : (Ray.mk ((rCex.Direction.Multiply 0).Add rCex.Origin)
      ⟨-SunlightDir.X, -SunlightDir.Y, -SunlightDir.Z⟩) = rsCex := by
    have hp : (rCex.Direction.Multiply 0).Add rCex.Origin = (⟨0, 0, 0⟩ : Vector3) := by
      simp [rCex, Vector3.Multiply, Vector3.Add]
    rw [hp]
    rfl
  have pf1 : siCex.Intersect (Ray.mk ((rCex.Direction.Multiply 0).Add rCex.Origin)
      ⟨-SunlightDir.X, -SunlightDir.Y, -SunlightDir.Z⟩) = NoHit := by
    rw [hray]
    exact siCex_miss
  have pf2 : soCex.Intersect (Ray.mk ((rCex.Direction.Multiply 0).Add rCex.Origin)
      ⟨-SunlightDir.X, -SunlightDir.Y, -SunlightDir.Z⟩) ≠ NoHit := by
    rw [hray]
    exact soCex_ne
  have h := C3_sun_attenuation siCex soCex rCex rCex 0 1 pf1 pf2
  rw [hray] at h
  exact ⟨siCex_miss, soCex_ne, h⟩

/-- C6. Any pixel whose camera ray misses the outer atmosphere sphere is
written as pure black with full alpha, with no other contribution. -/
theorem C6_sky_black (tex : ℤ → ℤ → ℕ × ℕ × ℕ × ℕ) (maxX maxY : ℤ)
    (nextUp : ℝ → ℝ) (x y : ℤ)
    (h : so.Intersect (cameraRay x y) = NoHit) :
    renderPixel tex maxX maxY nextUp (cameraRay x y) = (0, 0, 0, 255) := by
  simp only [renderPixel]
  rw [h]
  rw [if_neg (fun hc => hc rfl)]
  unfold Color.Pack
  dsimp only
  simp only [packChan_zero le_rfl, packChan_sat le_rfl]

lemma cameraRay00_eq :
    cameraRay 0 0 = ⟨⟨0, 0, -40 * 1000 * 1000⟩, (Vector3.mk (-4 / 3) 1 5).Normalize⟩ := by
  unfold cameraRay ImageWidth ImageHeight
  norm_num

lemma camera00_miss : so.Intersect (cameraRay 0 0) = NoHit := by
  apply Sphere.Intersect_of_nonpos
  unfold Sphere.interD Sphere.interB Sphere.interC
  rw [cameraRay00_eq]
  simp only [so, EarthRadius, EarthAtmosphereHeight, Identity_Inverse, Identity_MulRay,
    Vector3.Normalize, Vector3.Divide, Vector3.Multiply, Vector3.Length,
    Vector3.LengthSquared, Vector3.Sub, Vector3.Dot]
  have hs : ((-4 / 3 : ℝ) * (-4 / 3) + 1 * 1 + 5 * 5) = 250 / 9 := by norm_num
  rw [hs]
  have hw2 : Real.sqrt (250 / 9) * Real.sqrt (250 / 9) = 250 / 9 :=
    Real.mul_self_sqrt (by norm_num)
  have hinv : (1 / Real.sqrt (250 / 9)) * (1 / Real.sqrt (250 / 9)) = 9 / 250 := by
    rw [div_mul_div_comm, one_mul, hw2]
    norm_num
  nlinarith [hinv]

/-- Witness for C6: the corner pixel (0, 0), whose camera ray misses the
outer sphere, renders pure black. -/
theorem C6_witness :
    so.Intersect (cameraRay 0 0) = NoHit ∧
    renderPixel (fun _ _ => (0, 0, 0, 0)) 1 1 (fun v => v) (cameraRay 0 0) =
      (0, 0, 0, 255) :=
  ⟨camera00_miss,
   C6_sky_black (fun _ _ => (0, 0, 0, 0)) 1 1 (fun v => v) 0 0 camera00_miss⟩

end Atmos
